import Mathlib

/-!
Verification of the Log Analyzer agent (conversational DevOps assistant).

Shallow embedding of the tool-calling control loop with human-approval
gating, translated from:
  - src/agents/log_analyzer.py  (is_confirmation, LogAnalyzerAgent:
      process_query, _tool_loop, _execute_tool_call, _find_tool)
  - src/tools/__init__.py       (SAFE_TOOLS, APPROVAL_REQUIRED_TOOLS,
      requires_approval, get_all_tools)
  - src/utils/response.py       (extract_response_text)
  - src/config.py               (Config.MAX_ITERATIONS)

External collaborators are parameters: the LLM backend is a function
from a message list to a response, and the side-effecting tool
invocation is a function from name and argument payload to an outcome
(a returned string or a raised exception message).  Ghost trace fields
(events emitted to the progress observer, the list of invocations that
actually ran, the names fed to the approval gate) record the order of
the source-level operations without influencing any computation.
-/

namespace DevopsAgent

/-- Characters removed by Python `str.strip()` with no argument
(ASCII whitespace, as Python `str.isspace` on ASCII). -/
def isPySpace (c : Char) : Bool :=
  c == ' ' || c == '\t' || c == '\n' || c == '\r' || c == '\x0b' || c == '\x0c'

/-- The punctuation characters of the literal `"!.,"` passed to `rstrip`
in `is_confirmation` (log_analyzer.py line 28). -/
def isTrailPunct (c : Char) : Bool :=
  c == '!' || c == '.' || c == ','

/-- Python `text.strip()`: drop leading and trailing whitespace. -/
def pyStrip (s : String) : String :=
  ⟨((s.data.dropWhile isPySpace).reverse.dropWhile isPySpace).reverse⟩

/-- Python `text.lower()` (ASCII case mapping). -/
def pyLower (s : String) : String :=
  ⟨s.data.map Char.toLower⟩

/-- Python `text.rstrip("!.,")`: drop every trailing character that is
one of `!`, `.`, `,`. -/
def pyRstrip (s : String) : String :=
  ⟨(s.data.reverse.dropWhile isTrailPunct).reverse⟩

/-- log_analyzer.py lines 20-23: the words that count as user confirmation. -/
def CONFIRMATIONS : List String :=
  ["yes", "y", "confirm", "approve", "go ahead",
   "do it", "ok", "proceed", "sure", "yeah", "yep"]

/-- log_analyzer.py lines 26-28:
`return text.strip().lower().rstrip("!.,") in CONFIRMATIONS`. -/
def is_confirmation (text : String) : Bool :=
  CONFIRMATIONS.contains (pyRstrip (pyLower (pyStrip text)))

/-- tools/__init__.py line 11. -/
def SAFE_TOOLS : List String :=
  ["read_log_file", "list_log_files", "search_logs", "send_slack_notification"]

/-- tools/__init__.py line 12. -/
def APPROVAL_REQUIRED_TOOLS : List String :=
  ["reboot_rds_instance", "restart_kubernetes_pod"]

/-- tools/__init__.py lines 15-17:
`return tool_name in APPROVAL_REQUIRED_TOOLS`. -/
def requires_approval (tool_name : String) : Bool :=
  APPROVAL_REQUIRED_TOOLS.contains tool_name

/-- The names of the tools returned by `get_all_tools`
(tools/__init__.py lines 20-26), in registration order. -/
def ALL_TOOL_NAMES : List String :=
  ["read_log_file", "list_log_files", "search_logs",
   "restart_kubernetes_pod", "reboot_rds_instance", "send_slack_notification"]

/-- `LogAnalyzerAgent._find_tool` (log_analyzer.py lines 178-183) scans
`self.tools` for a matching name; we model only whether it succeeds. -/
def find_tool (name : String) : Bool :=
  ALL_TOOL_NAMES.contains name

/-- One block of a structured (list-shaped) LangChain message content,
as examined by `extract_response_text` (response.py lines 30-37):
a dict carrying a `text` entry, a dict without one, or a bare string. -/
inductive ContentBlock where
  | dictWithText (s : String)
  | dictNoText
  | strBlock (s : String)
deriving DecidableEq, Repr

/-- The `.content` of a LangChain message: a plain string or a list of blocks. -/
inductive Content where
  | str (s : String)
  | blocks (bs : List ContentBlock)
deriving DecidableEq, Repr

/-- response.py lines 31-37: the text a block contributes, if any. -/
def blockText : ContentBlock → Option String
  | ContentBlock.dictWithText s => some s
  | ContentBlock.dictNoText => none
  | ContentBlock.strBlock s => some s

/-- A tool call request `{name, args, id}` as read by `_execute_tool_call`
(log_analyzer.py line 141).  The argument mapping is opaque to the loop,
so it is carried as an uninterpreted payload string. -/
structure ToolCall where
  name : String
  args : String
  id : String
deriving DecidableEq, Repr

/-- A model turn: content plus a list of tool call requests. -/
structure Response where
  content : Content
  tool_calls : List ToolCall
deriving DecidableEq, Repr

/-- response.py lines 6-42, restricted to objects that do have a
`.content` attribute (every LangChain message does): assemble the text
and return `text.strip()`. -/
def extract_response_text (r : Response) : String :=
  pyStrip (match r.content with
    | Content.str s => s
    | Content.blocks bs => String.intercalate "\n" (bs.filterMap blockText))

/-- A turn of the conversation list the loop maintains: the system
prompt, a human message, an AI message (content plus tool calls, as
rebuilt at log_analyzer.py lines 117-120), or a ToolMessage. -/
inductive Msg where
  | system (content : String)
  | human (content : String)
  | ai (content : Content) (tool_calls : List ToolCall)
  | tool (content : String) (tool_call_id : String)
deriving DecidableEq, Repr

/-- A lifecycle event reported to the progress observer (the
`callbacks` parameter), in emission order. -/
inductive Event where
  | thinking
  | reasoning (text : String)
  | approval_skipped (name : String) (args : String)
  | tool_start (name : String) (args : String)
  | tool_end (name : String) (result : String) (success : Bool)
deriving DecidableEq, Repr

/-- Outcome of `tool_func.invoke(args)` (log_analyzer.py line 168):
either the returned value rendered with `str`, or a raised exception
rendered with `str(e)`. -/
inductive ExecOutcome where
  | ok (result : String)
  | exn (message : String)
deriving DecidableEq, Repr

/-- The side-effecting behaviour of the registered tools, as a function
of the requested name and argument payload. -/
abbrev ToolEnv := String → String → ExecOutcome

/-- The LLM backend: `self.llm.invoke(messages)` as a function of the
conversation sent. -/
abbrev LLM := List Msg → Response

/-- The mutable pieces `_execute_tool_call` touches, plus ghost traces:
`pending_actions` is the agent field of the same name; `executed`
records each `tool_func.invoke` that actually ran, in order;
`approval_checks` records each name passed to `requires_approval` by
the gate at log_analyzer.py line 144 (Python evaluates the left operand
of `and` unconditionally); `events` records observer notifications. -/
structure ExecState where
  pending_actions : List ToolCall
  executed : List (String × String)
  approval_checks : List String
  events : List Event
deriving DecidableEq, Repr

/-- The projection of `ExecState` that excludes the observer-event
trace: pending actions, executed invocations, approval-gate checks. -/
def ExecState.core (st : ExecState) :
    List ToolCall × List (String × String) × List String :=
  (st.pending_actions, st.executed, st.approval_checks)

/-- The blocked-pending-approval notice text (log_analyzer.py lines 149-154). -/
def blocked_notice (name : String) : String :=
  "Action \x27" ++ name ++ "\x27 requires human approval and was not executed. " ++
  "Present your findings and ask the user to confirm. " ++
  "When the user confirms, call this tool again -- " ++
  "the system will allow it through."

/-- The unknown-tool notice text (log_analyzer.py line 164). -/
def not_found_notice (name : String) : String :=
  "Tool \x27" ++ name ++ "\x27 not found"

/-- `LogAnalyzerAgent._execute_tool_call` (log_analyzer.py lines 135-175):
run one tool call, or block it pending approval, returning the
ToolMessage and the updated state. -/
def execute_tool_call (impl : ToolEnv) (tc : ToolCall) (approval_granted : Bool)
    (cb : Bool) (st : ExecState) : Msg × ExecState :=
  let st0 := { st with approval_checks := st.approval_checks ++ [tc.name] }
  if requires_approval tc.name && !approval_granted then
    (Msg.tool (blocked_notice tc.name) tc.id,
     { st0 with
        pending_actions := st0.pending_actions ++ [tc],
        events := st0.events ++
          (if cb then [Event.approval_skipped tc.name tc.args] else []) })
  else
    let st1 := { st0 with
      events := st0.events ++
        (if cb then [Event.tool_start tc.name tc.args] else []) }
    if !find_tool tc.name then
      (Msg.tool (not_found_notice tc.name) tc.id, st1)
    else
      match impl tc.name tc.args with
      | ExecOutcome.ok result =>
        (Msg.tool result tc.id,
         { st1 with
            executed := st1.executed ++ [(tc.name, tc.args)],
            events := st1.events ++
              (if cb then [Event.tool_end tc.name result true] else []) })
      | ExecOutcome.exn e =>
        (Msg.tool ("Error: " ++ e) tc.id,
         { st1 with
            executed := st1.executed ++ [(tc.name, tc.args)],
            events := st1.events ++
              (if cb then [Event.tool_end tc.name e false] else []) })

/-- The `for tc in response.tool_calls` loop of `_tool_loop`
(log_analyzer.py lines 109-114): execute the calls in request order,
collecting one ToolMessage per request. -/
def execute_tool_calls (impl : ToolEnv) (tcs : List ToolCall)
    (approval_granted : Bool) (cb : Bool) (st : ExecState) :
    List Msg × ExecState :=
  match tcs with
  | [] => ([], st)
  | tc :: rest =>
    let r1 := execute_tool_call impl tc approval_granted cb st
    let r2 := execute_tool_calls impl rest approval_granted cb r1.2
    (r1.1 :: r2.1, r2.2)

/-- What one `process_query` cycle produces: the returned answer, the
conversation as extended by the loop, the final state, and the number
of `self.llm.invoke` calls made inside `_tool_loop` (the initial
invocation in `process_query` is not counted). -/
structure LoopResult where
  answer : String
  messages : List Msg
  state : ExecState
  rounds : Nat
deriving DecidableEq, Repr

/-- Python `a or b` on strings: the empty string is falsy. -/
def pyOr (a b : String) : String :=
  if a = "" then b else a

/-- `LogAnalyzerAgent._tool_loop` (log_analyzer.py lines 85-130), with
the iteration count of `range(Config.MAX_ITERATIONS)` as fuel. -/
def tool_loop (llm : LLM) (impl : ToolEnv) (cb : Bool) :
    Nat → Response → List Msg → Bool → String → ExecState → LoopResult
  | 0, response, messages, _, last_text, st =>
    { answer := pyOr (extract_response_text response)
        (pyOr last_text "Reached maximum analysis steps."),
      messages := messages, state := st, rounds := 0 }
  | fuel + 1, response, messages, approval_granted, last_text, st =>
    if response.tool_calls = [] then
      { answer := pyOr (extract_response_text response)
          (pyOr last_text "No response generated."),
        messages := messages, state := st, rounds := 0 }
    else
      let intermediate := extract_response_text response
      let last_text2 := pyOr intermediate last_text
      let st1 := if cb ∧ intermediate ≠ "" then
          { st with events := st.events ++ [Event.reasoning intermediate] }
        else st
      let r := execute_tool_calls impl response.tool_calls approval_granted cb st1
      let messages2 :=
        messages ++ [Msg.ai response.content response.tool_calls] ++ r.1
      let st2 := if cb then
          { r.2 with events := r.2.events ++ [Event.thinking] }
        else r.2
      let q := tool_loop llm impl cb fuel (llm messages2) messages2
        approval_granted last_text2 st2
      { q with rounds := q.rounds + 1 }

/-- `self.prompt.format_messages(chat_history=..., input=...)` over the
template of log_analyzer.py lines 46-50: system prompt, then the prior
history, then the new user message. -/
def initial_messages (system_prompt : String) (chat_history : List Msg)
    (user_input : String) : List Msg :=
  Msg.system system_prompt :: (chat_history ++ [Msg.human user_input])

/-- The state at the start of a cycle: `self.pending_actions = []`
(log_analyzer.py line 67), empty traces, and the initial
`callbacks.on_thinking()` of line 77 when an observer is attached. -/
def init_exec_state (cb : Bool) : ExecState :=
  { pending_actions := [], executed := [], approval_checks := [],
    events := if cb then [Event.thinking] else [] }

/-- config.py line 44. -/
def Config.MAX_ITERATIONS : Nat := 10

/-- `LogAnalyzerAgent.process_query` (log_analyzer.py lines 56-80):
reset pending actions, derive the approval grant from the raw user
input, build the conversation, invoke the model once, and enter the
tool loop.  `cb` is whether a progress observer is attached. -/
def process_query (llm : LLM) (impl : ToolEnv) (cb : Bool)
    (user_input : String) (chat_history : List Msg)
    (system_prompt : String) : LoopResult :=
  let approval_granted := is_confirmation user_input
  let messages := initial_messages system_prompt chat_history user_input
  let response := llm messages
  tool_loop llm impl cb Config.MAX_ITERATIONS response messages
    approval_granted "" (init_exec_state cb)

/-! ### Shared helper definitions and lemmas -/

/-- A concrete tool environment used in closed instances: every
invocation returns the fixed string "ok". -/
def implOk : ToolEnv := fun _ _ => ExecOutcome.ok "ok"

/-- A concrete model backend used in closed instances: it always
requests `list_log_files` with no accompanying text. -/
def llmAlwaysTools : LLM :=
  fun _ => ⟨Content.str "", [⟨"list_log_files", "", "c4w"⟩]⟩

theorem contains_iff_mem_str (l : List String) (a : String) :
    l.contains a = true ↔ a ∈ l := by
  simp [List.contains]

theorem toLower_fixed_of_space_or_punct (c : Char)
    (h : (isPySpace c || isTrailPunct c) = true) : c.toLower = c := by
  simp [isPySpace, isTrailPunct] at h
  rcases h with (((((h | h) | h) | h) | h) | h) | ((h | h) | h) <;>
    subst h <;> decide

theorem chars_of_pyStrip (s : String) (c : Char)
    (h : c ∈ (pyStrip s).data) : c ∈ s.data := by
  have h1 : c ∈ (s.data.dropWhile isPySpace).reverse.dropWhile isPySpace :=
    List.mem_reverse.mp h
  have h2 : c ∈ (s.data.dropWhile isPySpace).reverse :=
    (List.dropWhile_sublist _).subset h1
  exact (List.dropWhile_sublist _).subset (List.mem_reverse.mp h2)

theorem chars_of_pyRstrip (s : String) (c : Char)
    (h : c ∈ (pyRstrip s).data) : c ∈ s.data :=
  List.mem_reverse.mp
    ((List.dropWhile_sublist _).subset (List.mem_reverse.mp h))

theorem normalized_chars (s : String)
    (hs : ∀ c ∈ s.data, (isPySpace c || isTrailPunct c) = true) :
    ∀ c ∈ (pyRstrip (pyLower (pyStrip s))).data,
      (isPySpace c || isTrailPunct c) = true := by
  intro c hc
  have hc1 : c ∈ (pyLower (pyStrip s)).data := chars_of_pyRstrip _ _ hc
  obtain ⟨d, hd, hdc⟩ :
      ∃ d, d ∈ (pyStrip s).data ∧ Char.toLower d = c := List.mem_map.mp hc1
  have hds : (isPySpace d || isTrailPunct d) = true := hs d (chars_of_pyStrip _ _ hd)
  rw [← hdc, toLower_fixed_of_space_or_punct d hds]
  exact hds

theorem vocab_never_space_punct_only (n : String)
    (h : ∀ c ∈ n.data, (isPySpace c || isTrailPunct c) = true) :
    CONFIRMATIONS.contains n = false := by
  cases hc : CONFIRMATIONS.contains n with
  | false => rfl
  | true =>
    exfalso
    have hmem : n ∈ CONFIRMATIONS := (contains_iff_mem_str _ _).mp hc
    simp [CONFIRMATIONS] at hmem
    rcases hmem with h1 | h1 | h1 | h1 | h1 | h1 | h1 | h1 | h1 | h1 | h1 <;>
      (subst h1; revert h; decide)

theorem requires_approval_imp_find (n : String)
    (h : requires_approval n = true) : find_tool n = true := by
  have hm : n ∈ APPROVAL_REQUIRED_TOOLS := (contains_iff_mem_str _ _).mp h
  simp [APPROVAL_REQUIRED_TOOLS] at hm
  rcases hm with h1 | h1 <;> subst h1 <;> decide

theorem exec_call_not_found (impl : ToolEnv) (tc : ToolCall) (a cb : Bool)
    (st : ExecState) (h : find_tool tc.name = false) :
    execute_tool_call impl tc a cb st =
      (Msg.tool (not_found_notice tc.name) tc.id,
       { st with
          approval_checks := st.approval_checks ++ [tc.name],
          events := st.events ++
            (if cb then [Event.tool_start tc.name tc.args] else []) }) := by
  have hreq : requires_approval tc.name = false := by
    cases hr : requires_approval tc.name with
    | false => rfl
    | true => rw [requires_approval_imp_find _ hr] at h; exact absurd h (by simp)
  unfold execute_tool_call
  simp [hreq, h]

theorem exec_call_blocked (impl : ToolEnv) (tc : ToolCall) (a cb : Bool)
    (st : ExecState) (h : (requires_approval tc.name && !a) = true) :
    execute_tool_call impl tc a cb st =
      (Msg.tool (blocked_notice tc.name) tc.id,
       { st with
          approval_checks := st.approval_checks ++ [tc.name],
          pending_actions := st.pending_actions ++ [tc],
          events := st.events ++
            (if cb then [Event.approval_skipped tc.name tc.args] else []) }) := by
  unfold execute_tool_call
  simp [h]

theorem exec_call_ok (impl : ToolEnv) (tc : ToolCall) (a cb : Bool)
    (st : ExecState) (r : String) (hg : (requires_approval tc.name && !a) = false)
    (hf : find_tool tc.name = true) (hi : impl tc.name tc.args = ExecOutcome.ok r) :
    execute_tool_call impl tc a cb st =
      (Msg.tool r tc.id,
       { st with
          approval_checks := st.approval_checks ++ [tc.name],
          executed := st.executed ++ [(tc.name, tc.args)],
          events := st.events ++
            (if cb then [Event.tool_start tc.name tc.args,
                         Event.tool_end tc.name r true] else []) }) := by
  unfold execute_tool_call
  cases cb <;> simp [hg, hf, hi]

theorem exec_call_exn (impl : ToolEnv) (tc : ToolCall) (a cb : Bool)
    (st : ExecState) (e : String) (hg : (requires_approval tc.name && !a) = false)
    (hf : find_tool tc.name = true) (hi : impl tc.name tc.args = ExecOutcome.exn e) :
    execute_tool_call impl tc a cb st =
      (Msg.tool ("Error: " ++ e) tc.id,
       { st with
          approval_checks := st.approval_checks ++ [tc.name],
          executed := st.executed ++ [(tc.name, tc.args)],
          events := st.events ++
            (if cb then [Event.tool_start tc.name tc.args,
                         Event.tool_end tc.name e false] else []) }) := by
  unfold execute_tool_call
  cases cb <;> simp [hg, hf, hi]

theorem exec_calls_nil (impl : ToolEnv) (a cb : Bool) (st : ExecState) :
    execute_tool_calls impl [] a cb st = ([], st) := rfl

theorem exec_calls_cons (impl : ToolEnv) (tc : ToolCall) (rest : List ToolCall)
    (a cb : Bool) (st : ExecState) :
    execute_tool_calls impl (tc :: rest) a cb st =
      ((execute_tool_call impl tc a cb st).1 ::
        (execute_tool_calls impl rest a cb (execute_tool_call impl tc a cb st).2).1,
       (execute_tool_calls impl rest a cb (execute_tool_call impl tc a cb st).2).2) :=
  rfl

theorem exec_calls_length (impl : ToolEnv) (a cb : Bool) :
    ∀ (tcs : List ToolCall) (st : ExecState),
      (execute_tool_calls impl tcs a cb st).1.length = tcs.length
  | [], _ => rfl
  | tc :: rest, st => by
    rw [exec_calls_cons]
    simp [exec_calls_length impl a cb rest]

theorem exec_call_id (impl : ToolEnv) (tc : ToolCall) (a cb : Bool)
    (st : ExecState) :
    ∃ c, (execute_tool_call impl tc a cb st).1 = Msg.tool c tc.id := by
  by_cases hg : (requires_approval tc.name && !a) = true
  · exact ⟨_, congrArg Prod.fst (exec_call_blocked impl tc a cb st hg)⟩
  · have hg' : (requires_approval tc.name && !a) = false := by simpa using hg
    by_cases hf : find_tool tc.name = true
    · cases hi : impl tc.name tc.args with
      | ok r => exact ⟨_, congrArg Prod.fst (exec_call_ok impl tc a cb st r hg' hf hi)⟩
      | exn e => exact ⟨_, congrArg Prod.fst (exec_call_exn impl tc a cb st e hg' hf hi)⟩
    · have hf' : find_tool tc.name = false := by simpa using hf
      exact ⟨_, congrArg Prod.fst (exec_call_not_found impl tc a cb st hf')⟩

theorem exec_calls_ids (impl : ToolEnv) (a cb : Bool) :
    ∀ (tcs : List ToolCall) (st : ExecState),
      ∀ p ∈ ((execute_tool_calls impl tcs a cb st).1).zip tcs,
        ∃ c, p.1 = Msg.tool c p.2.id
  | [], st => by simp [execute_tool_calls]
  | tc :: rest, st => by
    intro p hp
    rw [exec_calls_cons] at hp
    simp only [List.zip_cons_cons, List.mem_cons] at hp
    rcases hp with hp | hp
    · subst hp
      exact exec_call_id impl tc a cb st
    · exact exec_calls_ids impl a cb rest _ p hp

theorem tool_loop_zero (llm : LLM) (impl : ToolEnv) (cb : Bool) (resp : Response)
    (msgs : List Msg) (a : Bool) (last : String) (st : ExecState) :
    tool_loop llm impl cb 0 resp msgs a last st =
      { answer := pyOr (extract_response_text resp)
          (pyOr last "Reached maximum analysis steps."),
        messages := msgs, state := st, rounds := 0 } := rfl

theorem tool_loop_done (llm : LLM) (impl : ToolEnv) (cb : Bool) (fuel : Nat)
    (resp : Response) (msgs : List Msg) (a : Bool) (last : String)
    (st : ExecState) (h : resp.tool_calls = []) :
    tool_loop llm impl cb (fuel + 1) resp msgs a last st =
      { answer := pyOr (extract_response_text resp)
          (pyOr last "No response generated."),
        messages := msgs, state := st, rounds := 0 } := by
  rw [tool_loop]
  simp [h]

theorem tool_loop_step (llm : LLM) (impl : ToolEnv) (cb : Bool) (fuel : Nat)
    (resp : Response) (msgs : List Msg) (a : Bool) (last : String)
    (st : ExecState) (h : resp.tool_calls ≠ []) :
    tool_loop llm impl cb (fuel + 1) resp msgs a last st =
      (let intermediate := extract_response_text resp
       let st1 := if cb ∧ intermediate ≠ "" then
           { st with events := st.events ++ [Event.reasoning intermediate] }
         else st
       let r := execute_tool_calls impl resp.tool_calls a cb st1
       let messages2 := msgs ++ [Msg.ai resp.content resp.tool_calls] ++ r.1
       let st2 := if cb then { r.2 with events := r.2.events ++ [Event.thinking] }
         else r.2
       let q := tool_loop llm impl cb fuel (llm messages2) messages2 a
         (pyOr intermediate last) st2
       { q with rounds := q.rounds + 1 }) := by
  rw [tool_loop]
  simp [h]

theorem core_of_ite_events (P : Prop) [Decidable P] (st : ExecState)
    (E : List Event) :
    (if P then { st with events := E } else st).core = st.core := by
  split <;> rfl

theorem exec_call_core (impl : ToolEnv) (tc : ToolCall) (a : Bool)
    (cb1 cb2 : Bool) (st1 st2 : ExecState) (h : st1.core = st2.core) :
    (execute_tool_call impl tc a cb1 st1).1 =
      (execute_tool_call impl tc a cb2 st2).1 ∧
    (execute_tool_call impl tc a cb1 st1).2.core =
      (execute_tool_call impl tc a cb2 st2).2.core := by
  have hp : st1.pending_actions = st2.pending_actions :=
    congrArg (fun x => x.1) h
  have hx : st1.executed = st2.executed := congrArg (fun x => x.2.1) h
  have hc : st1.approval_checks = st2.approval_checks :=
    congrArg (fun x => x.2.2) h
  by_cases hg : (requires_approval tc.name && !a) = true
  · rw [exec_call_blocked impl tc a cb1 st1 hg,
        exec_call_blocked impl tc a cb2 st2 hg]
    exact ⟨rfl, by simp [ExecState.core, hp, hx, hc]⟩
  · have hg' : (requires_approval tc.name && !a) = false := by simpa using hg
    by_cases hf : find_tool tc.name = true
    · cases hi : impl tc.name tc.args with
      | ok r =>
        rw [exec_call_ok impl tc a cb1 st1 r hg' hf hi,
            exec_call_ok impl tc a cb2 st2 r hg' hf hi]
        exact ⟨rfl, by simp [ExecState.core, hp, hx, hc]⟩
      | exn e =>
        rw [exec_call_exn impl tc a cb1 st1 e hg' hf hi,
            exec_call_exn impl tc a cb2 st2 e hg' hf hi]
        exact ⟨rfl, by simp [ExecState.core, hp, hx, hc]⟩
    · have hf' : find_tool tc.name = false := by simpa using hf
      rw [exec_call_not_found impl tc a cb1 st1 hf',
          exec_call_not_found impl tc a cb2 st2 hf']
      exact ⟨rfl, by simp [ExecState.core, hp, hx, hc]⟩

theorem exec_calls_core (impl : ToolEnv) (a : Bool) :
    ∀ (tcs : List ToolCall) (cb1 cb2 : Bool) (st1 st2 : ExecState),
      st1.core = st2.core →
      (execute_tool_calls impl tcs a cb1 st1).1 =
        (execute_tool_calls impl tcs a cb2 st2).1 ∧
      (execute_tool_calls impl tcs a cb1 st1).2.core =
        (execute_tool_calls impl tcs a cb2 st2).2.core
  | [], cb1, cb2, st1, st2, h => ⟨rfl, h⟩
  | tc :: rest, cb1, cb2, st1, st2, h => by
    have hhead := exec_call_core impl tc a cb1 cb2 st1 st2 h
    have htail := exec_calls_core impl a rest cb1 cb2
      (execute_tool_call impl tc a cb1 st1).2
      (execute_tool_call impl tc a cb2 st2).2 hhead.2
    rw [exec_calls_cons, exec_calls_cons]
    exact ⟨by rw [hhead.1, htail.1], htail.2⟩

theorem tool_loop_core (llm : LLM) (impl : ToolEnv) (a : Bool) :
    ∀ (fuel : Nat) (resp : Response) (msgs : List Msg) (last : String)
      (cb1 cb2 : Bool) (st1 st2 : ExecState), st1.core = st2.core →
      (tool_loop llm impl cb1 fuel resp msgs a last st1).answer =
        (tool_loop llm impl cb2 fuel resp msgs a last st2).answer ∧
      (tool_loop llm impl cb1 fuel resp msgs a last st1).messages =
        (tool_loop llm impl cb2 fuel resp msgs a last st2).messages ∧
      (tool_loop llm impl cb1 fuel resp msgs a last st1).state.core =
        (tool_loop llm impl cb2 fuel resp msgs a last st2).state.core ∧
      (tool_loop llm impl cb1 fuel resp msgs a last st1).rounds =
        (tool_loop llm impl cb2 fuel resp msgs a last st2).rounds
  | 0, resp, msgs, last, cb1, cb2, st1, st2, h => by
    rw [tool_loop_zero, tool_loop_zero]
    exact ⟨rfl, rfl, h, rfl⟩
  | fuel + 1, resp, msgs, last, cb1, cb2, st1, st2, h => by
    by_cases hne : resp.tool_calls = []
    · rw [tool_loop_done llm impl cb1 fuel resp msgs a last st1 hne,
          tool_loop_done llm impl cb2 fuel resp msgs a last st2 hne]
      exact ⟨rfl, rfl, h, rfl⟩
    · rw [tool_loop_step llm impl cb1 fuel resp msgs a last st1 hne,
          tool_loop_step llm impl cb2 fuel resp msgs a last st2 hne]
      simp only []
      have h1 : ((if cb1 ∧ extract_response_text resp ≠ "" then
          { st1 with events := st1.events ++
              [Event.reasoning (extract_response_text resp)] }
        else st1)).core =
          ((if cb2 ∧ extract_response_text resp ≠ "" then
          { st2 with events := st2.events ++
              [Event.reasoning (extract_response_text resp)] }
        else st2)).core := by
        rw [core_of_ite_events, core_of_ite_events]; exact h
      have hr := exec_calls_core impl a resp.tool_calls cb1 cb2 _ _ h1
      rw [hr.1]
      have h2 : ((if cb1 then
          { (execute_tool_calls impl resp.tool_calls a cb1
              (if cb1 ∧ extract_response_text resp ≠ "" then
                { st1 with events := st1.events ++
                    [Event.reasoning (extract_response_text resp)] }
               else st1)).2 with
            events := (execute_tool_calls impl resp.tool_calls a cb1
              (if cb1 ∧ extract_response_text resp ≠ "" then
                { st1 with events := st1.events ++
                    [Event.reasoning (extract_response_text resp)] }
               else st1)).2.events ++ [Event.thinking] }
        else (execute_tool_calls impl resp.tool_calls a cb1
              (if cb1 ∧ extract_response_text resp ≠ "" then
                { st1 with events := st1.events ++
                    [Event.reasoning (extract_response_text resp)] }
               else st1)).2)).core =
        ((if cb2 then
          { (execute_tool_calls impl resp.tool_calls a cb2
              (if cb2 ∧ extract_response_text resp ≠ "" then
                { st2 with events := st2.events ++
                    [Event.reasoning (extract_response_text resp)] }
               else st2)).2 with
            events := (execute_tool_calls impl resp.tool_calls a cb2
              (if cb2 ∧ extract_response_text resp ≠ "" then
                { st2 with events := st2.events ++
                    [Event.reasoning (extract_response_text resp)] }
               else st2)).2.events ++ [Event.thinking] }
        else (execute_tool_calls impl resp.tool_calls a cb2
              (if cb2 ∧ extract_response_text resp ≠ "" then
                { st2 with events := st2.events ++
                    [Event.reasoning (extract_response_text resp)] }
               else st2)).2)).core := by
        rw [core_of_ite_events, core_of_ite_events]; exact hr.2
      have hq := tool_loop_core llm impl a fuel
        (llm (msgs ++ [Msg.ai resp.content resp.tool_calls] ++
          (execute_tool_calls impl resp.tool_calls a cb2
            (if cb2 ∧ extract_response_text resp ≠ "" then
              { st2 with events := st2.events ++
                  [Event.reasoning (extract_response_text resp)] }
             else st2)).1))
        (msgs ++ [Msg.ai resp.content resp.tool_calls] ++
          (execute_tool_calls impl resp.tool_calls a cb2
            (if cb2 ∧ extract_response_text resp ≠ "" then
              { st2 with events := st2.events ++
                  [Event.reasoning (extract_response_text resp)] }
             else st2)).1)
        (pyOr (extract_response_text resp) last) cb1 cb2 _ _ h2
      exact ⟨hq.1, hq.2.1, hq.2.2.1, by rw [hq.2.2.2]⟩

theorem pyOr_ne (a b : String) (h : b ≠ "") : pyOr a b ≠ "" := by
  unfold pyOr
  split
  · exact h
  · assumption

theorem tool_loop_rounds_le (llm : LLM) (impl : ToolEnv) (cb : Bool) :
    ∀ (fuel : Nat) (resp : Response) (msgs : List Msg) (a : Bool)
      (last : String) (st : ExecState),
      (tool_loop llm impl cb fuel resp msgs a last st).rounds ≤ fuel
  | 0, resp, msgs, a, last, st => by
    rw [tool_loop_zero]
  | fuel + 1, resp, msgs, a, last, st => by
    by_cases hne : resp.tool_calls = []
    · rw [tool_loop_done llm impl cb fuel resp msgs a last st hne]
      exact Nat.zero_le _
    · rw [tool_loop_step llm impl cb fuel resp msgs a last st hne]
      exact Nat.succ_le_succ (tool_loop_rounds_le llm impl cb fuel _ _ a _ _)

theorem tool_loop_answer_ne (llm : LLM) (impl : ToolEnv) (cb : Bool) :
    ∀ (fuel : Nat) (resp : Response) (msgs : List Msg) (a : Bool)
      (last : String) (st : ExecState),
      (tool_loop llm impl cb fuel resp msgs a last st).answer ≠ ""
  | 0, resp, msgs, a, last, st => by
    rw [tool_loop_zero]
    exact pyOr_ne _ _ (pyOr_ne _ _ (by decide))
  | fuel + 1, resp, msgs, a, last, st => by
    by_cases hne : resp.tool_calls = []
    · rw [tool_loop_done llm impl cb fuel resp msgs a last st hne]
      exact pyOr_ne _ _ (pyOr_ne _ _ (by decide))
    · rw [tool_loop_step llm impl cb fuel resp msgs a last st hne]
      exact tool_loop_answer_ne llm impl cb fuel _ _ a _ _

theorem tool_loop_always_tools (llm : LLM) (impl : ToolEnv) (cb a : Bool)
    (hT : ∀ m, (llm m).tool_calls ≠ [])
    (hE : ∀ m, extract_response_text (llm m) = "") :
    ∀ (fuel : Nat) (resp : Response) (msgs : List Msg) (st : ExecState),
      resp.tool_calls ≠ [] → extract_response_text resp = "" →
      (tool_loop llm impl cb fuel resp msgs a "" st).answer =
        "Reached maximum analysis steps."
  | 0, resp, msgs, st, hne, hemp => by
    rw [tool_loop_zero]
    simp [hemp, pyOr]
  | fuel + 1, resp, msgs, st, hne, hemp => by
    rw [tool_loop_step llm impl cb fuel resp msgs a "" st hne]
    simp only [hemp]
    have : pyOr "" "" = "" := rfl
    rw [this]
    exact tool_loop_always_tools llm impl cb a hT hE fuel _ _ _ (hT _) (hE _)

theorem exec_calls_all_blocked (impl : ToolEnv) (cb : Bool) :
    ∀ (tcs : List ToolCall) (st : ExecState),
      (∀ tc ∈ tcs, requires_approval tc.name = true) →
      execute_tool_calls impl tcs false cb st =
        (tcs.map (fun tc => Msg.tool (blocked_notice tc.name) tc.id),
         { st with
            pending_actions := st.pending_actions ++ tcs,
            approval_checks :=
              st.approval_checks ++ tcs.map (fun tc => tc.name),
            events := st.events ++
              (if cb then
                tcs.map (fun tc => Event.approval_skipped tc.name tc.args)
               else []) })
  | [], st, _ => by cases cb <;> simp [execute_tool_calls]
  | tc :: rest, st, h => by
    have hh : requires_approval tc.name = true := h tc (List.mem_cons_self tc rest)
    have hb := exec_call_blocked impl tc false cb st (by simp [hh])
    rw [exec_calls_cons, hb,
      exec_calls_all_blocked impl cb rest _
        (fun x hx => h x (List.mem_cons_of_mem _ hx))]
    cases cb <;> simp

/-! ### Claim theorems -/

theorem executed_of_ite_events (P : Prop) [Decidable P] (st : ExecState)
    (E : List Event) :
    (if P then { st with events := E } else st).executed = st.executed := by
  split <;> rfl

theorem pending_of_ite_events (P : Prop) [Decidable P] (st : ExecState)
    (E : List Event) :
    (if P then { st with events := E } else st).pending_actions =
      st.pending_actions := by
  split <;> rfl

theorem exec_call_msg_const (impl : ToolEnv) (tc : ToolCall) (a : Bool)
    (cb1 cb2 : Bool) (st1 st2 : ExecState) :
    (execute_tool_call impl tc a cb1 st1).1 =
      (execute_tool_call impl tc a cb2 st2).1 := by
  by_cases hg : (requires_approval tc.name && !a) = true
  · rw [exec_call_blocked impl tc a cb1 st1 hg,
        exec_call_blocked impl tc a cb2 st2 hg]
  · have hg' : (requires_approval tc.name && !a) = false := by simpa using hg
    by_cases hf : find_tool tc.name = true
    · cases hi : impl tc.name tc.args with
      | ok r =>
        rw [exec_call_ok impl tc a cb1 st1 r hg' hf hi,
            exec_call_ok impl tc a cb2 st2 r hg' hf hi]
      | exn e =>
        rw [exec_call_exn impl tc a cb1 st1 e hg' hf hi,
            exec_call_exn impl tc a cb2 st2 e hg' hf hi]
    · have hf' : find_tool tc.name = false := by simpa using hf
      rw [exec_call_not_found impl tc a cb1 st1 hf',
          exec_call_not_found impl tc a cb2 st2 hf']

theorem exec_calls_msgs_const (impl : ToolEnv) (a : Bool) :
    ∀ (tcs : List ToolCall) (cb1 cb2 : Bool) (st1 st2 : ExecState),
      (execute_tool_calls impl tcs a cb1 st1).1 =
        (execute_tool_calls impl tcs a cb2 st2).1
  | [], _, _, _, _ => rfl
  | tc :: rest, cb1, cb2, st1, st2 => by
    rw [exec_calls_cons, exec_calls_cons]
    rw [exec_call_msg_const impl tc a cb1 cb2 st1 st2]
    rw [exec_calls_msgs_const impl a rest cb1 cb2 _ _]

theorem tool_loop_step_shape (llm : LLM) (impl : ToolEnv) (cb : Bool)
    (fuel : Nat) (resp : Response) (msgs : List Msg) (a : Bool)
    (last : String) (st : ExecState) (h : resp.tool_calls ≠ []) :
    ∃ (st2 : ExecState) (last2 : String),
      st2.executed =
        (execute_tool_calls impl resp.tool_calls a cb st).2.executed ∧
      st2.pending_actions =
        (execute_tool_calls impl resp.tool_calls a cb st).2.pending_actions ∧
      tool_loop llm impl cb (fuel + 1) resp msgs a last st =
        (let m2 := msgs ++ [Msg.ai resp.content resp.tool_calls] ++
           (execute_tool_calls impl resp.tool_calls a cb st).1
         let q := tool_loop llm impl cb fuel (llm m2) m2 a last2 st2
         { q with rounds := q.rounds + 1 }) := by
  have hcore := exec_calls_core impl a resp.tool_calls cb cb
    (if cb ∧ extract_response_text resp ≠ "" then
      { st with events := st.events ++
          [Event.reasoning (extract_response_text resp)] }
     else st) st
    (core_of_ite_events _ st _)
  refine ⟨(if cb then
      { (execute_tool_calls impl resp.tool_calls a cb
          (if cb ∧ extract_response_text resp ≠ "" then
            { st with events := st.events ++
                [Event.reasoning (extract_response_text resp)] }
           else st)).2 with
        events := (execute_tool_calls impl resp.tool_calls a cb
          (if cb ∧ extract_response_text resp ≠ "" then
            { st with events := st.events ++
                [Event.reasoning (extract_response_text resp)] }
           else st)).2.events ++ [Event.thinking] }
    else (execute_tool_calls impl resp.tool_calls a cb
          (if cb ∧ extract_response_text resp ≠ "" then
            { st with events := st.events ++
                [Event.reasoning (extract_response_text resp)] }
           else st)).2),
    pyOr (extract_response_text resp) last, ?_, ?_, ?_⟩
  · rw [executed_of_ite_events]
    exact congrArg (fun x => x.2.1) hcore.2
  · rw [pending_of_ite_events]
    exact congrArg (fun x => x.1) hcore.2
  · rw [tool_loop_step llm impl cb fuel resp msgs a last st h]
    simp only [hcore.1]

/-- C1: in a cycle whose user input is not a recognized confirmation
(`approval_granted = false`), a model turn that requests only
approval-required tools causes zero side-effecting tool executions (the
execution trace is unchanged), produces exactly one blocked-notice Tool
Result Turn per request, in request order and carrying the call id of each request, and records each blocked request in `pending_actions` (which
`process_query` reset to empty at the start of the cycle); the next
model invocation of the cycle is applied to the conversation extended
with exactly those blocked-notice turns. -/
theorem C1_blocked_without_approval :
    ∀ (llm : LLM) (impl : ToolEnv) (cb : Bool) (fuel : Nat)
      (resp : Response) (msgs : List Msg) (last : String) (st : ExecState),
      resp.tool_calls ≠ [] →
      (∀ tc ∈ resp.tool_calls, requires_approval tc.name = true) →
      (∀ (tc : ToolCall) (su : ExecState), requires_approval tc.name = true →
        execute_tool_call impl tc false cb su =
          (Msg.tool (blocked_notice tc.name) tc.id,
           { su with
              approval_checks := su.approval_checks ++ [tc.name],
              pending_actions := su.pending_actions ++ [tc],
              events := su.events ++
                (if cb then [Event.approval_skipped tc.name tc.args]
                 else []) })) ∧
      (execute_tool_calls impl resp.tool_calls false cb st).2.executed =
        st.executed ∧
      (execute_tool_calls impl resp.tool_calls false cb st).1 =
        resp.tool_calls.map
          (fun tc => Msg.tool (blocked_notice tc.name) tc.id) ∧
      (execute_tool_calls impl resp.tool_calls false cb st).2.pending_actions =
        st.pending_actions ++ resp.tool_calls ∧
      (init_exec_state cb).pending_actions = [] ∧
      (∃ (st2 : ExecState) (last2 : String),
        st2.executed = st.executed ∧
        st2.pending_actions = st.pending_actions ++ resp.tool_calls ∧
        tool_loop llm impl cb (fuel + 1) resp msgs false last st =
          (let m2 := msgs ++ [Msg.ai resp.content resp.tool_calls] ++
             resp.tool_calls.map
               (fun tc => Msg.tool (blocked_notice tc.name) tc.id)
           let q := tool_loop llm impl cb fuel (llm m2) m2 false last2 st2
           { q with rounds := q.rounds + 1 })) := by
  intro llm impl cb fuel resp msgs last st hne hall
  have hb := exec_calls_all_blocked impl cb resp.tool_calls st hall
  refine ⟨fun tc su hreq =>
      exec_call_blocked impl tc false cb su (by simp [hreq]),
    by rw [hb], by rw [hb], by rw [hb], rfl, ?_⟩
  obtain ⟨st2, last2, hx, hp, heq⟩ :=
    tool_loop_step_shape llm impl cb fuel resp msgs false last st hne
  refine ⟨st2, last2, ?_, ?_, ?_⟩
  · rw [hx, hb]
  · rw [hp, hb]
  · rw [heq]
    simp only [hb]

/-- C1 witness: with no approval, a requested `restart_kubernetes_pod`
call is not executed, yields exactly one blocked-notice result carrying
its call id, and is recorded in the pending actions. -/
theorem C1_witness :
    (execute_tool_calls implOk
        [⟨"restart_kubernetes_pod", "pod=api-1", "c1w"⟩] false true
        (init_exec_state true)).2.executed = [] ∧
    (execute_tool_calls implOk
        [⟨"restart_kubernetes_pod", "pod=api-1", "c1w"⟩] false true
        (init_exec_state true)).2.pending_actions =
      [⟨"restart_kubernetes_pod", "pod=api-1", "c1w"⟩] ∧
    (execute_tool_calls implOk
        [⟨"restart_kubernetes_pod", "pod=api-1", "c1w"⟩] false true
        (init_exec_state true)).1 =
      [Msg.tool (blocked_notice "restart_kubernetes_pod") "c1w"] := by
  have h := C1_blocked_without_approval llmAlwaysTools implOk true 9
    ⟨Content.str "", [⟨"restart_kubernetes_pod", "pod=api-1", "c1w"⟩]⟩ [] ""
    (init_exec_state true) (by decide) (by decide)
  exact ⟨h.2.1.trans rfl, h.2.2.2.1.trans (by rfl), h.2.2.1.trans (by rfl)⟩

/-- C3: for a model turn with tool call requests, the loop produces
exactly one Tool Result Turn per request (the result list has the same
length as the request list), each result is a tool message whose
`tool_call_id` equals the `call_id` of the request it answers, and the
next model invocation of the cycle is applied to the conversation
extended by the own turn of the model followed by exactly those results in
request order. -/
theorem C3_every_request_answered :
    ∀ (llm : LLM) (impl : ToolEnv) (cb : Bool) (fuel : Nat)
      (resp : Response) (msgs : List Msg) (a : Bool) (last : String)
      (st : ExecState),
      resp.tool_calls ≠ [] →
      (execute_tool_calls impl resp.tool_calls a cb st).1.length =
        resp.tool_calls.length ∧
      (∀ p ∈ ((execute_tool_calls impl resp.tool_calls a cb st).1).zip
          resp.tool_calls, ∃ c, p.1 = Msg.tool c p.2.id) ∧
      (∃ (st2 : ExecState) (last2 : String),
        tool_loop llm impl cb (fuel + 1) resp msgs a last st =
          (let m2 := msgs ++ [Msg.ai resp.content resp.tool_calls] ++
             (execute_tool_calls impl resp.tool_calls a cb st).1
           let q := tool_loop llm impl cb fuel (llm m2) m2 a last2 st2
           { q with rounds := q.rounds + 1 })) := by
  intro llm impl cb fuel resp msgs a last st hne
  refine ⟨exec_calls_length impl a cb resp.tool_calls st,
          exec_calls_ids impl a cb resp.tool_calls st, ?_⟩
  obtain ⟨st2, last2, hx, hp, heq⟩ :=
    tool_loop_step_shape llm impl cb fuel resp msgs a last st hne
  exact ⟨st2, last2, heq⟩

/-- C3 witness: two requests (one safe, one unknown) receive exactly two
results whose ids echo the call ids of the requests. -/
theorem C3_witness :
    (execute_tool_calls implOk
        [⟨"list_log_files", "", "a1"⟩, ⟨"frobnicate", "x", "a2"⟩]
        true true (init_exec_state true)).1.length = 2 ∧
    ∀ p ∈ ((execute_tool_calls implOk
        [⟨"list_log_files", "", "a1"⟩, ⟨"frobnicate", "x", "a2"⟩]
        true true (init_exec_state true)).1).zip
        ([⟨"list_log_files", "", "a1"⟩, ⟨"frobnicate", "x", "a2"⟩] :
          List ToolCall),
      ∃ c, p.1 = Msg.tool c p.2.id := by
  have h := C3_every_request_answered llmAlwaysTools implOk true 9
    ⟨Content.str "",
      [⟨"list_log_files", "", "a1"⟩, ⟨"frobnicate", "x", "a2"⟩]⟩
    [] true "" (init_exec_state true) (by decide)
  exact ⟨h.1.trans (by rfl), h.2.1⟩

/-- C2: `approval_granted` is computed exactly once per cycle, before
any model invocation, as `is_confirmation` applied to the raw user
input, and that single boolean is the one passed to the tool loop and
used for every call of the cycle (first conjunct, definitional shape of
`process_query`).  When it is true, an approval-required tool requested
by the model is executed exactly once (exactly one new entry in the
execution trace) and its real execution result — not a blocked notice —
is returned as the Tool Result Turn of that request, carrying its
call id (second conjunct). -/
theorem C2_approval_once_and_executes :
    (∀ (llm : LLM) (impl : ToolEnv) (cb : Bool) (inp : String)
        (hist : List Msg) (sys : String),
      process_query llm impl cb inp hist sys =
        tool_loop llm impl cb Config.MAX_ITERATIONS
          (llm (initial_messages sys hist inp))
          (initial_messages sys hist inp)
          (is_confirmation inp) "" (init_exec_state cb)) ∧
    (∀ (impl : ToolEnv) (tc : ToolCall) (cb : Bool) (st : ExecState)
        (r : String),
      requires_approval tc.name = true →
      find_tool tc.name = true →
      impl tc.name tc.args = ExecOutcome.ok r →
      execute_tool_call impl tc true cb st =
        (Msg.tool r tc.id,
         { st with
            approval_checks := st.approval_checks ++ [tc.name],
            executed := st.executed ++ [(tc.name, tc.args)],
            events := st.events ++
              (if cb then [Event.tool_start tc.name tc.args,
                           Event.tool_end tc.name r true] else []) })) := by
  constructor
  · intro llm impl cb inp hist sys
    rfl
  · intro impl tc cb st r hreq hf hi
    exact exec_call_ok impl tc true cb st r (by simp [hreq]) hf hi

/-- C2 witness: with a confirming cycle (`approval_granted = true`), the
approval-required tool `restart_kubernetes_pod` executes once and its
real result is the Tool Result Turn. -/
theorem C2_witness :
    (execute_tool_call implOk
        ⟨"restart_kubernetes_pod", "pod=api-1", "c2w"⟩ true true
        (init_exec_state true)).1 = Msg.tool "ok" "c2w" ∧
    (execute_tool_call implOk
        ⟨"restart_kubernetes_pod", "pod=api-1", "c2w"⟩ true true
        (init_exec_state true)).2.executed =
      [("restart_kubernetes_pod", "pod=api-1")] := by
  have h := C2_approval_once_and_executes.2 implOk
    ⟨"restart_kubernetes_pod", "pod=api-1", "c2w"⟩ true
    (init_exec_state true) "ok" (by decide) (by decide) rfl
  constructor
  · rw [h]
  · rw [h]; rfl

/-- A concrete tool environment whose every invocation raises, with
exception text "boom". -/
def implBoom : ToolEnv := fun _ _ => ExecOutcome.exn "boom"

/-- C7: a tool call whose execution raises is caught and converted into
a Tool Result Turn whose content is the error message prefixed with
"Error: " (distinct from success output), a failed tool-end event is
reported to the observer when one is attached, and the per-request loop
continues to the next request (and hence to the next model invocation)
instead of terminating abnormally. -/
theorem C7_exception_to_error_result :
    ∀ (impl : ToolEnv) (tc : ToolCall) (a cb : Bool) (st : ExecState)
      (e : String) (rest : List ToolCall),
      (requires_approval tc.name && !a) = false →
      find_tool tc.name = true →
      impl tc.name tc.args = ExecOutcome.exn e →
      execute_tool_call impl tc a cb st =
        (Msg.tool ("Error: " ++ e) tc.id,
         { st with
            approval_checks := st.approval_checks ++ [tc.name],
            executed := st.executed ++ [(tc.name, tc.args)],
            events := st.events ++
              (if cb then [Event.tool_start tc.name tc.args,
                           Event.tool_end tc.name e false] else []) }) ∧
      (execute_tool_calls impl (tc :: rest) a cb st).1 =
        Msg.tool ("Error: " ++ e) tc.id ::
          (execute_tool_calls impl rest a cb
            (execute_tool_call impl tc a cb st).2).1 := by
  intro impl tc a cb st e rest hg hf hi
  have h1 := exec_call_exn impl tc a cb st e hg hf hi
  refine ⟨h1, ?_⟩
  rw [exec_calls_cons]
  simp [h1]

/-- C7 witness: a raising tool invocation on `read_log_file` yields the
error-prefixed Tool Result Turn for its call id. -/
theorem C7_witness :
    (execute_tool_call implBoom ⟨"read_log_file", "f=app.log", "c7w"⟩
        false true (init_exec_state true)).1 =
      Msg.tool ("Error: " ++ "boom") "c7w" := by
  have h := C7_exception_to_error_result implBoom
    ⟨"read_log_file", "f=app.log", "c7w"⟩ false true (init_exec_state true)
    "boom" [] (by decide) (by decide) rfl
  rw [h.1]

/-- C4: the tool loop runs at most `Config.MAX_ITERATIONS = 10` model
round-trips inside the loop and the returned answer is never empty
(first conjunct); on exhaustion the answer is the text of the last response,
else the last non-empty intermediate text, else the fixed string
"Reached maximum analysis steps." (second conjunct, the priority order
at the iteration ceiling); in particular when every model response
requests tools and carries no text, `process_query` returns exactly the
fixed fallback string (third conjunct). -/
theorem C4_bounded_and_nonempty :
    (∀ (llm : LLM) (impl : ToolEnv) (cb : Bool) (inp : String)
        (hist : List Msg) (sys : String),
      (process_query llm impl cb inp hist sys).rounds ≤
        Config.MAX_ITERATIONS ∧
      (process_query llm impl cb inp hist sys).answer ≠ "") ∧
    (∀ (llm : LLM) (impl : ToolEnv) (cb : Bool) (resp : Response)
        (msgs : List Msg) (a : Bool) (last : String) (st : ExecState),
      tool_loop llm impl cb 0 resp msgs a last st =
        { answer := pyOr (extract_response_text resp)
            (pyOr last "Reached maximum analysis steps."),
          messages := msgs, state := st, rounds := 0 }) ∧
    (∀ (llm : LLM) (impl : ToolEnv) (cb : Bool) (inp : String)
        (hist : List Msg) (sys : String),
      (∀ m, (llm m).tool_calls ≠ []) →
      (∀ m, extract_response_text (llm m) = "") →
      (process_query llm impl cb inp hist sys).answer =
        "Reached maximum analysis steps.") := by
  refine ⟨?_, ?_, ?_⟩
  · intro llm impl cb inp hist sys
    exact ⟨tool_loop_rounds_le llm impl cb _ _ _ _ _ _,
           tool_loop_answer_ne llm impl cb _ _ _ _ _ _⟩
  · intro llm impl cb resp msgs a last st
    exact tool_loop_zero llm impl cb resp msgs a last st
  · intro llm impl cb inp hist sys hT hE
    exact tool_loop_always_tools llm impl cb (is_confirmation inp) hT hE
      Config.MAX_ITERATIONS _ _ _ (hT _) (hE _)

/-- C4 witness: a model that always requests `list_log_files` with no
text makes the cycle stop at the ceiling with the fixed fallback. -/
theorem C4_witness :
    (process_query llmAlwaysTools implOk false "check the logs" []
        "sys").answer = "Reached maximum analysis steps." :=
  C4_bounded_and_nonempty.2.2 llmAlwaysTools
    implOk false "check the logs" [] "sys"
    (fun _ => by simp [llmAlwaysTools]) (fun _ => rfl)

/-- C8: a first model turn with no tool calls makes `process_query`
return its extracted text (which `extract_response_text` produces by
trimming the raw content) when non-empty, with zero tool executions in
the cycle; when the text of the terminal turn is empty the answer falls back
to the most recent non-empty intermediate text of the cycle, else the
fixed string "No response generated."; the returned answer is never
empty. -/
theorem C8_final_text_handling :
    (∀ (llm : LLM) (impl : ToolEnv) (cb : Bool) (inp : String)
        (hist : List Msg) (sys : String),
      (llm (initial_messages sys hist inp)).tool_calls = [] →
      (process_query llm impl cb inp hist sys).answer =
          pyOr (extract_response_text (llm (initial_messages sys hist inp)))
            "No response generated." ∧
      (process_query llm impl cb inp hist sys).state.executed = []) ∧
    (∀ (s : String) (tcs : List ToolCall),
      extract_response_text ⟨Content.str s, tcs⟩ = pyStrip s) ∧
    (∀ (llm : LLM) (impl : ToolEnv) (cb : Bool) (fuel : Nat)
        (resp : Response) (msgs : List Msg) (a : Bool) (last : String)
        (st : ExecState),
      resp.tool_calls = [] →
      (tool_loop llm impl cb (fuel + 1) resp msgs a last st).answer =
        pyOr (extract_response_text resp) (pyOr last "No response generated.")) ∧
    (∀ (llm : LLM) (impl : ToolEnv) (cb : Bool) (inp : String)
        (hist : List Msg) (sys : String),
      (process_query llm impl cb inp hist sys).answer ≠ "") := by
  refine ⟨?_, ?_, ?_, ?_⟩
  · intro llm impl cb inp hist sys h
    have h10 : Config.MAX_ITERATIONS = 9 + 1 := rfl
    constructor
    · show (tool_loop llm impl cb Config.MAX_ITERATIONS _ _ _ _ _).answer = _
      rw [h10, tool_loop_done llm impl cb 9 _ _ _ _ _ h]
      simp [pyOr]
    · show (tool_loop llm impl cb Config.MAX_ITERATIONS _ _ _ _ _).state.executed = _
      rw [h10, tool_loop_done llm impl cb 9 _ _ _ _ _ h]
      rfl
  · intro s tcs
    rfl
  · intro llm impl cb fuel resp msgs a last st h
    rw [tool_loop_done llm impl cb fuel resp msgs a last st h]
  · intro llm impl cb inp hist sys
    exact tool_loop_answer_ne llm impl cb _ _ _ _ _ _

/-- C8 witness: a text-only first model turn returns the trimmed text
and executes no tools. -/
theorem C8_witness :
    (process_query (fun _ => ⟨Content.str "  All good.  ", []⟩)
        implOk false "status?" [] "sys").answer = "All good." ∧
    (process_query (fun _ => ⟨Content.str "  All good.  ", []⟩)
        implOk false "status?" [] "sys").state.executed = [] := by
  have h := C8_final_text_handling.1
    (fun _ => ⟨Content.str "  All good.  ", []⟩)
    implOk false "status?" [] "sys" rfl
  refine ⟨?_, h.2⟩
  rw [h.1]
  decide

/-- C9: the progress observer is purely observational — running
`process_query` with no observer attached returns the same final
answer, extends the conversation identically, records the same pending
actions, performs the same tool executions, and makes the same number
of model round-trips as running it with the observer attached; only the
emitted event trace differs. -/
theorem C9_observer_never_influences :
    ∀ (llm : LLM) (impl : ToolEnv) (inp : String) (hist : List Msg)
      (sys : String),
      (process_query llm impl true inp hist sys).answer =
        (process_query llm impl false inp hist sys).answer ∧
      (process_query llm impl true inp hist sys).messages =
        (process_query llm impl false inp hist sys).messages ∧
      (process_query llm impl true inp hist sys).state.pending_actions =
        (process_query llm impl false inp hist sys).state.pending_actions ∧
      (process_query llm impl true inp hist sys).state.executed =
        (process_query llm impl false inp hist sys).state.executed ∧
      (process_query llm impl true inp hist sys).rounds =
        (process_query llm impl false inp hist sys).rounds := by
  intro llm impl inp hist sys
  have h := tool_loop_core llm impl (is_confirmation inp)
    Config.MAX_ITERATIONS (llm (initial_messages sys hist inp))
    (initial_messages sys hist inp) "" true false
    (init_exec_state true) (init_exec_state false) rfl
  exact ⟨h.1, h.2.1, congrArg (fun x => x.1) h.2.2.1,
         congrArg (fun x => x.2.1) h.2.2.1, h.2.2.2⟩

/-- C5: `is_confirmation` trims whitespace, lower-cases, strips every
trailing run of `!`, `.`, `,`, and then tests exact membership in the
fixed eleven-word vocabulary; `is_confirmation "Yes!!!"` is true,
`is_confirmation "I guess"` is false, and no partial or fuzzy match
returns true (the iff is exact membership after normalization). -/
theorem C5_is_confirmation_exact_vocabulary :
    (∀ t : String, is_confirmation t = true ↔
        pyRstrip (pyLower (pyStrip t)) ∈
          (["yes", "y", "confirm", "approve", "go ahead",
            "do it", "ok", "proceed", "sure", "yeah", "yep"] : List String)) ∧
    is_confirmation "Yes!!!" = true ∧
    is_confirmation "I guess" = false := by
  refine ⟨?_, by decide, by decide⟩
  intro t
  exact contains_iff_mem_str CONFIRMATIONS _

/-- C10 counterexample: the input ". ." consists only of whitespace and
the punctuation characters, yet normalization does not reduce it to the
empty string (it yields ". "), contradicting the stated
mechanism of the claim; the detector still returns false on it. -/
theorem C10_cex :
    (∀ c ∈ (". .").data, (isPySpace c || isTrailPunct c) = true) ∧
    pyRstrip (pyLower (pyStrip ". .")) ≠ "" ∧
    is_confirmation ". ." = false := by
  exact ⟨by decide, by decide, by decide⟩

/-- C10 (amended): `is_confirmation` returns false for the empty string
and for every input consisting only of whitespace and/or the punctuation
characters `!`, `.`, `,` — normalization reduces such an input to a
(possibly empty) string of whitespace and punctuation characters only,
which is never in the confirmation vocabulary — so such inputs never
grant approval for a cycle. -/
theorem C10_space_punct_never_confirms :
    is_confirmation "" = false ∧
    ∀ s : String, (∀ c ∈ s.data, (isPySpace c || isTrailPunct c) = true) →
      is_confirmation s = false := by
  refine ⟨by decide, ?_⟩
  intro s hs
  exact vocab_never_space_punct_only _ (normalized_chars s hs)

/-- C10 witness: the amended theorem applied to the concrete input " .,!". -/
theorem C10_witness : is_confirmation " .,!" = false :=
  C10_space_punct_never_confirms.2 " .,!" (by decide)

/-- C6 counterexample: for the unknown tool name "frobnicate", the gate
at log_analyzer.py line 144 does evaluate `requires_approval` (the
ghost `approval_checks` trace records it) before `_find_tool` runs, so
the claim that an unknown name "never reaches this check because the
lookup-by-name (find) fails first" is false of the code: the lookup
happens after the check, not before. -/
theorem C6_cex :
    find_tool "frobnicate" = false ∧
    (execute_tool_call implOk ⟨"frobnicate", "a", "c6"⟩ false false
        (init_exec_state false)).2.approval_checks = ["frobnicate"] := by
  exact ⟨by decide, by decide⟩

/-- C6 (amended): `requires_approval` returns false for every name not
in the approval-required set, including unknown tool names; an unknown
tool name does reach this check (`requires_approval` is evaluated
before the lookup in `_execute_tool_call`) but returns false there, so
the call proceeds to the lookup, which fails, and the request is
answered with a textual "not found" Tool Result Turn carrying the
call id of the request, after which the loop continues. -/
theorem C6_unknown_tool_not_found :
    (∀ name : String, name ∉ APPROVAL_REQUIRED_TOOLS →
      requires_approval name = false) ∧
    (∀ (impl : ToolEnv) (tc : ToolCall) (a cb : Bool) (st : ExecState),
      find_tool tc.name = false →
      execute_tool_call impl tc a cb st =
        (Msg.tool (not_found_notice tc.name) tc.id,
         { st with
            approval_checks := st.approval_checks ++ [tc.name],
            events := st.events ++
              (if cb then [Event.tool_start tc.name tc.args] else []) })) := by
  constructor
  · intro name hn
    cases hr : requires_approval name with
    | false => rfl
    | true => exact absurd ((contains_iff_mem_str _ _).mp hr) hn
  · intro impl tc a cb st h
    exact exec_call_not_found impl tc a cb st h

/-- C6 witness: the amended theorem applied to the unknown name
"frobnicate" with a concrete tool call and initial state. -/
theorem C6_witness :
    requires_approval "frobnicate" = false ∧
    (execute_tool_call implOk ⟨"frobnicate", "a", "c6w"⟩ false true
        (init_exec_state true)).1 =
      Msg.tool (not_found_notice "frobnicate") "c6w" :=
  ⟨C6_unknown_tool_not_found.1 "frobnicate" (by decide),
   congrArg Prod.fst
     (C6_unknown_tool_not_found.2 implOk ⟨"frobnicate", "a", "c6w"⟩ false true
       (init_exec_state true) (by decide))⟩

end DevopsAgent
